import Mathlib

/-!
Verification development for the fibery-mcp-server query/search tools
(`src/fibery_mcp_server/tools/query.py` and `.../tools/search.py`).

The Python code is shallowly embedded:
- Python dicts that the code iterates in insertion order become association
  lists `List (String × _)` (Python 3.7+ dicts are insertion ordered and the
  keys are unique).
- A select-clause value (`q_select` entry) is a `FieldSpec`: a string field
  path, a list of path segments, a sub-query dict, or any other value.  The
  contents of a sub-query and of "other" values are never inspected by the
  embedded code paths, so they are abstracted to an identity tag.
- Entity record values are `EVal`: strings, numbers, booleans, null, or any
  other value abstracted to an identity tag plus its Python truthiness.
- The Python `IndexError` raised by `field_name[0]` on an empty list is
  modelled with `Except String`.
- Asynchronous collaborator calls (`fibery_client.get_document_content`)
  become function parameters.
-/

/-- A value of a select clause entry (`q_select[alias]` in the Python code).
`subq` is a dict value (a sub-query); `other` is any non-string, non-list,
non-dict value.  Their payloads are identity tags: the embedded code never
looks inside them. -/
inductive FieldSpec where
  | str (s : String)
  | list (segs : List String)
  | subq (tag : Nat)
  | other (tag : Nat)
deriving DecidableEq, Repr

/-- A select clause: insertion-ordered mapping alias → FieldSpec. -/
abbrev Select := List (String × FieldSpec)

/-- Field metadata from the schema; only `is_rich_text()` is consulted by
the embedded code (`query.py` line 126). -/
structure SchemaField where
  is_rich_text : Bool
deriving DecidableEq, Repr

/-- A database: `fields_by_name()` mapping from `fibery_client`. -/
structure Database where
  fields_by_name : List (String × SchemaField)
deriving DecidableEq, Repr

/-- An entry of the `rich_text_fields` worklist: the dict with keys
"alias" and "name" built at `query.py` line 127. -/
structure RichRef where
  alias_ : String
  name : String
deriving DecidableEq, Repr

/-- A value stored in an entity record returned by the executor.  `other`
abstracts any remaining Python value to an identity tag plus its Python
truthiness. -/
inductive EVal where
  | null
  | str (s : String)
  | num (n : Int)
  | boolV (b : Bool)
  | other (tag : Nat) (truthy : Bool)
deriving DecidableEq, Repr

/-- An entity record: insertion-ordered mapping alias → value. -/
abbrev Entity := List (String × EVal)

/-- Python falsiness (`not x` / `if x`) on an `EVal`. -/
def EVal.falsy : EVal → Bool
  | .null => true
  | .str s => s == ""
  | .num n => n == 0
  | .boolV b => !b
  | .other _ t => !t

/-- Python dict assignment `d[k] = v`: update in place when the key exists
(keeping its position), else append. -/
def dictSet {α : Type} (d : List (String × α)) (k : String) (v : α) :
    List (String × α) :=
  if d.any (fun p => p.1 == k) then
    d.map (fun p => if p.1 == k then (k, v) else p)
  else d ++ [(k, v)]

/-- The function `parse_q_order_by` (`query.py` lines 100-103).  `if not q_order_by`
covers both an absent argument and an empty mapping. -/
def parse_q_order_by (q_order_by : Option (List (String × String))) :
    Option (List (List String × String)) :=
  match q_order_by with
  | none => none
  | some l => if l.isEmpty then none else some (l.map (fun p => ([p.1], p.2)))

/-- Resolution of one select value to a leaf field name
(`query.py` lines 110-119): dict values are skipped, strings resolve to
themselves, lists to their first element — raising `IndexError` when the
list is empty — and every other value is skipped. -/
def resolveLeafName : FieldSpec → Except String (Option String)
  | .subq _ => .ok none
  | .str s => .ok (some s)
  | .list [] => .error "IndexError: list index out of range"
  | .list (s :: _) => .ok (some s)
  | .other _ => .ok none

/-- One iteration of the loop body of `get_rich_text_fields`
(`query.py` lines 109-128): returns the worklist entry (if any) and the
value the alias maps to afterwards. -/
def richEntry (db : Database) (a : String) (sp : FieldSpec) :
    Except String (Option RichRef × FieldSpec) :=
  match resolveLeafName sp with
  | .error e => .error e
  | .ok none => .ok (none, sp)
  | .ok (some name) =>
    match db.fields_by_name.lookup name with
    | none => .ok (none, sp)
    | some f =>
      if f.is_rich_text then
        .ok (some ⟨a, name⟩, FieldSpec.list [name, "Collaboration~Documents/secret"])
      else .ok (none, sp)

/-- The function `get_rich_text_fields` (`query.py` lines 106-129).  The Python loop
iterates over `safe_q_select.items()` (a deep copy of `q_select`) and only
ever reassigns the value of the alias currently visited, so iterating the
original entry list and rebuilding is equivalent (aliases are dict keys,
hence unique). -/
def get_rich_text_fields (q_select : Select) (db : Database) :
    Except String (List RichRef × Select) :=
  match q_select with
  | [] => .ok ([], [])
  | (a, sp) :: rest =>
    match richEntry db a sp with
    | .error e => .error e
    | .ok (r?, sp') =>
      match get_rich_text_fields rest db with
      | .error e => .error e
      | .ok (refs, out) => .ok (r?.toList ++ refs, (a, sp') :: out)

/-- A value of the wire query document sent to `fibery_client.query`.
`whereVal` carries the caller's filter tree, passed through opaquely
(identity tag). -/
inductive QVal where
  | str (s : String)
  | int (n : Int)
  | sel (s : Select)
  | whereVal (tag : Nat)
  | orderBy (l : List (List String × String))
  | strList (l : List String)
deriving DecidableEq, Repr

/-- Arguments of the `query_database` tool, as read by `handle_query`
(`query.py` lines 132-152).  `none` models an argument the caller omitted. -/
structure QueryArgs where
  q_from : String
  q_select : Select
  q_where : Option Nat
  q_order_by : Option (List (String × String))
  q_limit : Option Int
  q_offset : Option Int
deriving DecidableEq, Repr

/-- The wire document `base | optional` built by `handle_query`
(`query.py` lines 139-153): `base` holds the required keys, `optional`
keeps only the entries whose value `is not None`. -/
def build_query_doc (args : QueryArgs) (safe_q_select : Select) :
    List (String × QVal) :=
  let base : List (String × QVal) :=
    [("q/from", QVal.str args.q_from),
     ("q/select", QVal.sel safe_q_select),
     ("q/limit", QVal.int (args.q_limit.getD 50))]
  let optional : List (String × Option QVal) :=
    [("q/where", args.q_where.map QVal.whereVal),
     ("q/order-by", (parse_q_order_by args.q_order_by).map QVal.orderBy),
     ("q/offset", args.q_offset.map QVal.int)]
  base ++ optional.filterMap (fun p => p.2.map (fun v => (p.1, v)))

/-- The document-building part of `handle_query` (`query.py` lines 137-153):
rich-text detection on the select clause, then assembly of the wire
document. -/
def handle_query_build (args : QueryArgs) (db : Database) :
    Except String (List RichRef × List (String × QVal)) :=
  match get_rich_text_fields args.q_select db with
  | .error e => .error e
  | .ok (rtf, safe) => .ok (rtf, build_query_doc args safe)

/-- The structured content of one `mcp.types.TextContent` item produced by
`handle_query` after a successful execution (`query.py` lines 160-170):
either the diagnostic text naming the offending entity and worklist entry,
or the rendered command result. -/
inductive QueryOut where
  | diag (e : Entity) (f : RichRef)
  | result (entities : List Entity)
deriving DecidableEq, Repr

/-- Python dict assignment on an entity record. -/
def entitySet (e : Entity) (k : String) (v : EVal) : Entity := dictSet e k v

/-- The inner loop of the post-execution step (`query.py` lines 161-169) on
one entity: `entity.get(alias, None)` per worklist entry, abort when the
handle is falsy, otherwise replace the value with the fetched content.
`fetch` stands for `fibery_client.get_document_content`. -/
def resolveEntity (fetch : EVal → String) (e : Entity) :
    List RichRef → Except (Entity × RichRef) Entity
  | [] => .ok e
  | f :: rest =>
    let secret := (e.lookup f.alias_).getD EVal.null
    if secret.falsy then .error (e, f)
    else resolveEntity fetch (entitySet e f.alias_ (EVal.str (fetch secret))) rest

/-- The outer loop of the post-execution step (`query.py` line 160):
entities in order, first failure wins. -/
def resolveEntities (fetch : EVal → String) (rtf : List RichRef) :
    List Entity → Except (Entity × RichRef) (List Entity)
  | [] => .ok []
  | e :: rest =>
    match resolveEntity fetch e rtf with
    | .error p => .error p
    | .ok e' =>
      match resolveEntities fetch rtf rest with
      | .error p => .error p
      | .ok rest' => .ok (e' :: rest')

/-- The output of `handle_query` after a successful execution
(`query.py` lines 160-170): one diagnostic item, or one result item. -/
def handle_query_post (fetch : EVal → String) (rtf : List RichRef)
    (entities : List Entity) : List QueryOut :=
  match resolveEntities fetch rtf entities with
  | .error (e, f) => [QueryOut.diag e f]
  | .ok es => [QueryOut.result es]

/-- An entity lacks a non-empty handle value at a worklist entry when
`entity.get(alias, None)` is Python-falsy. -/
def lacksHandle (e : Entity) (f : RichRef) : Prop :=
  ((e.lookup f.alias_).getD EVal.null).falsy = true

/-- A heap of select-clause dicts; an address is an index.  Used to state
that `get_rich_text_fields` never mutates the caller's dict. -/
abbrev Store := List Select

/-- The loop of `get_rich_text_fields` at the mutation level
(`query.py` lines 109-128): iterate over the entries of the copied dict and
write the substituted value through the dict's address on the rich-text
branch (line 128).  Value reassignment never changes which items the loop
visits, so the entry list is the iteration snapshot. -/
def richLoop (db : Database) (addr : Nat) (store : Store) :
    List (String × FieldSpec) → Store × Except String (List RichRef)
  | [] => (store, .ok [])
  | (a, sp) :: rest =>
    match richEntry db a sp with
    | .error e => (store, .error e)
    | .ok (none, _) => richLoop db addr store rest
    | .ok (some r, sp') =>
      let store' := store.set addr (dictSet ((store.get? addr).getD []) a sp')
      let res := richLoop db addr store' rest
      (res.1, res.2.map (fun refs => r :: refs))

/-- The function `get_rich_text_fields` with the caller's dict held in a heap
(`query.py` lines 106-129): `deepcopy` allocates a fresh dict with the same
entries, the loop mutates only the copy, and the copy's address is returned
with the worklist. -/
def get_rich_text_fields_prog (store : Store) (qAddr : Nat) (db : Database) :
    Store × Except String (List RichRef × Nat) :=
  let q_select := (store.get? qAddr).getD []
  let safeAddr := store.length
  let store1 := store ++ [q_select]
  let res := richLoop db safeAddr store1 q_select
  (res.1, res.2.map (fun refs => (refs, safeAddr)))

/-- Case-insensitive lowering used by the search scanner (`str.lower`),
character by character. -/
def pyLower (s : String) : String := (s.toList.map Char.toLower).asString

/-- Python `s.replace(old, new)` for a single-character pattern: replace
every occurrence. -/
def pyReplaceChar (s : String) (old new : Char) : String :=
  (s.toList.map (fun c => if c = old then new else c)).asString

/-- Python `s.startswith(pre)`. -/
def pyStartsWith (s pre : String) : Bool :=
  pre.toList.isPrefixOf s.toList

/-- Python substring containment `needle in hay` on strings. -/
def strContainsSub (hay needle : String) : Bool :=
  (List.range (hay.toList.length + 1)).any
    (fun i => needle.toList.isPrefixOf (hay.toList.drop i))

/-- Arguments of the `search_entities` tool (`search.py` lines 52-56);
`none` models an argument the caller omitted. -/
structure SearchArgs where
  database : String
  query : String
  search_fields : Option (List String)
  return_fields : Option (List (String × FieldSpec))
  limit : Option Int
  offset : Option Int
deriving DecidableEq, Repr

/-- Python `"/".join(database.split("/")[:-1])` (`search.py` lines 63 and 70). -/
def spaceOf (database : String) : String :=
  (List.intercalate ['/'] ((database.toList.splitOn '/').dropLast)).asString

/-- Search-field defaulting (`search.py` lines 59-64): `if not search_fields`
covers both an absent argument and an empty list. -/
def defaultedSearchFields (args : SearchArgs) : List String :=
  match args.search_fields with
  | none => [spaceOf args.database ++ "/name"]
  | some [] => [spaceOf args.database ++ "/name"]
  | some l => l

/-- Return-field defaulting (`search.py` lines 67-74). -/
def defaultedReturnFields (args : SearchArgs) : List (String × FieldSpec) :=
  match args.return_fields with
  | none =>
    [("Name", FieldSpec.str (spaceOf args.database ++ "/name")),
     ("Id", FieldSpec.str "fibery/id")]
  | some [] =>
    [("Name", FieldSpec.str (spaceOf args.database ++ "/name")),
     ("Id", FieldSpec.str "fibery/id")]
  | some l => l

/-- The probe alias for a search field (`search.py` lines 86 and 116):
`"_search_" + search_field.replace("/", "_").replace(" ", "_")`. -/
def probeAlias (sf : String) : String :=
  "_search_" ++ pyReplaceChar (pyReplaceChar sf '/' '_') ' ' '_'

/-- The working select clause of the search scanner
(`search.py` lines 77-88): return fields first, then one probe alias per
search field unless an identical field path already appears among the
return-field values. -/
def search_q_select (return_fields : List (String × FieldSpec))
    (search_fields : List String) : Select :=
  let q0 := return_fields.foldl (fun acc p => dictSet acc p.1 p.2) []
  search_fields.foldl
    (fun acc sf =>
      if (return_fields.map (fun p => p.2)).contains (FieldSpec.str sf) then acc
      else dictSet acc (probeAlias sf) (FieldSpec.str sf))
    q0

/-- The working select clause built from the tool arguments. -/
def searchSelect (args : SearchArgs) : Select :=
  search_q_select (defaultedReturnFields args) (defaultedSearchFields args)

/-- The wire document sent by the search scanner (`search.py` lines 91-100).
Note the ordering entry: key `"q/order"` holding the flat pair
`["fibery/creation-date", "desc"]`. -/
def search_query_doc (database : String) (q_select : Select)
    (limit offset : Int) : List (String × QVal) :=
  [("q/from", QVal.str database),
   ("q/select", QVal.sel q_select),
   ("q/limit", QVal.int limit),
   ("q/offset", QVal.int offset),
   ("q/order", QVal.strList ["fibery/creation-date", "desc"])]

/-- Locating a search field's value in an entity (`search.py` lines 113-137):
by probe alias, else by the first select alias whose value equals the field
path (skipped when that alias is falsy, i.e. the empty string), else by
direct key match; `EVal.null` stands for the `None` of a failed lookup. -/
def locateFieldValue (q_select : Select) (entity : Entity) (sf : String) :
    EVal :=
  match entity.lookup (probeAlias sf) with
  | some v => v
  | none =>
    match (q_select.find? (fun p => p.2 == FieldSpec.str sf)).map (fun p => p.1) with
    | some qa =>
      if qa != "" then
        match entity.lookup qa with
        | some v => v
        | none => (entity.lookup sf).getD EVal.null
      else (entity.lookup sf).getD EVal.null
    | none => (entity.lookup sf).getD EVal.null

/-- The match test for one search field (`search.py` line 139):
`if field_value and isinstance(field_value, str) and query in field_value.lower()`. -/
def fieldMatches (query : String) (q_select : Select) (entity : Entity)
    (sf : String) : Bool :=
  let v := locateFieldValue q_select entity sf
  !v.falsy &&
    (match v with
     | EVal.str s => strContainsSub (pyLower s) query
     | _ => false)

/-- The `match_found` loop over search fields with its early break
(`search.py` lines 111-141). -/
def entityMatches (query : String) (q_select : Select) (entity : Entity) :
    List String → Bool
  | [] => false
  | sf :: rest =>
    if fieldMatches query q_select entity sf then true
    else entityMatches query q_select entity rest

/-- Probe-alias stripping (`search.py` line 145). -/
def stripProbes (e : Entity) : Entity :=
  e.filter (fun p => !(pyStartsWith p.1 "_search_"))

/-- The client-side filter of `handle_search` (`search.py` lines 105-146):
matching entities, each with its probe aliases removed. -/
def handle_search_filter (args : SearchArgs) (entities : List Entity) :
    List Entity :=
  let query := pyLower args.query
  let q_select := searchSelect args
  let sfs := defaultedSearchFields args
  (entities.filter (fun e => entityMatches query q_select e sfs)).map stripProbes

/-- The continuation instruction appended to a full page
(`search.py` line 153). -/
def continuationText (nextOffset : Int) : String :=
  "\n\nTo continue searching, call this tool again with offset=" ++
    toString nextOffset ++ "."

/-- The summary-plus-results part of the response text of `handle_search`
(`search.py` lines 149-150); the `render` parameter stands for Python's
`str` applied to the result dict. -/
def search_base_text (render : List Entity → String)
    (entities matching : List Entity) (offset limit : Int) : String :=
  "Scanned " ++ toString entities.length ++ " entities (offset " ++
    toString offset ++ ", limit " ++ toString limit ++ "). Found " ++
    toString matching.length ++ " matches:\n\n" ++ render matching

/-- The response text of `handle_search` (`search.py` lines 149-153). -/
def search_response_text (render : List Entity → String)
    (entities matching : List Entity) (offset limit : Int) : String :=
  if (entities.length : Int) = limit then
    search_base_text render entities matching offset limit ++
      continuationText (offset + limit)
  else search_base_text render entities matching offset limit

/-- Spec-side restatement of the search match rule, amended with the
non-emptiness the code's truthiness test enforces: the located value is a
non-empty string containing the lower-cased query case-insensitively. -/
def specFieldMatch (query : String) (q_select : Select) (entity : Entity)
    (sf : String) : Bool :=
  match locateFieldValue q_select entity sf with
  | EVal.str s => (s != "") && strContainsSub (pyLower s) query
  | _ => false

/-- A select value that `get_rich_text_fields` cannot resolve to a known
schema field: a sub-query, any other unsupported shape, or a string/list
spec whose leaf name is absent from the database's field metadata. -/
def unresolvableSpec (db : Database) : FieldSpec → Bool
  | .subq _ => true
  | .other _ => true
  | .str s => (db.fields_by_name.lookup s).isNone
  | .list [] => true
  | .list (s :: _) => (db.fields_by_name.lookup s).isNone

example : parse_q_order_by (some [("a", "q/asc"), ("b", "q/desc")]) =
    some [(["a"], "q/asc"), (["b"], "q/desc")] := by decide

example : parse_q_order_by (some []) = none := by decide

example :
    get_rich_text_fields [("Name", FieldSpec.str "Sales/name")]
      ⟨[("Sales/name", ⟨true⟩)]⟩ =
    .ok ([⟨"Name", "Sales/name"⟩],
      [("Name", FieldSpec.list ["Sales/name", "Collaboration~Documents/secret"])]) := rfl

example :
    handle_search_filter ⟨"Sales/Deal", "", none, none, none, none⟩
      [[("Name", EVal.str ""), ("Id", EVal.str "id1")]] = [] := by decide

example :
    locateFieldValue (searchSelect ⟨"Sales/Deal", "", none, none, none, none⟩)
      [("Name", EVal.str ""), ("Id", EVal.str "id1")] "Sales/name" =
    EVal.str "" := by decide

example :
    handle_search_filter ⟨"Sales/Deal", "Acme", none, none, none, none⟩
      [[("Name", EVal.str "ACME Corp"), ("Id", EVal.str "id1")],
       [("Name", EVal.str "Globex"), ("Id", EVal.str "id2")]] =
    [[("Name", EVal.str "ACME Corp"), ("Id", EVal.str "id1")]] := by decide

example :
    handle_search_filter ⟨"Sales/Deal", "acme", some ["Custom/title"], none, none, none⟩
      [[("Name", EVal.str "x"), ("_search_Custom_title", EVal.str "an Acme deal")]] =
    [[("Name", EVal.str "x")]] := by decide

/-- C4: for every non-empty insertion-ordered order-by mapping, the
transform yields the pair list in the same key order, each pair being the
singleton field path with the direction token passed through unchanged. -/
theorem C4_order_by_transform (q : List (String × String)) (h : q ≠ []) :
    parse_q_order_by (some q) = some (q.map (fun p => ([p.1], p.2))) := by
  cases q with
  | nil => exact absurd rfl h
  | cons a t => rfl

/-- Witness for C4 at a concrete two-entry mapping. -/
theorem C4_order_by_transform_witness :
    ([("a", "q/asc"), ("b", "q/desc")] ≠ ([] : List (String × String))) ∧
    parse_q_order_by (some [("a", "q/asc"), ("b", "q/desc")]) =
      some [(["a"], "q/asc"), (["b"], "q/desc")] :=
  ⟨by decide, C4_order_by_transform [("a", "q/asc"), ("b", "q/desc")] (by decide)⟩

/-- C6: when the executor returns exactly `limit` entities the search
response text carries the continuation instruction for `offset + limit`;
when it returns fewer, the response is the bare summary text. -/
theorem C6_continuation (render : List Entity → String)
    (entities matching : List Entity) (offset limit : Int) :
    ((entities.length : Int) = limit →
      search_response_text render entities matching offset limit =
        search_base_text render entities matching offset limit ++
          continuationText (offset + limit)) ∧
    ((entities.length : Int) < limit →
      search_response_text render entities matching offset limit =
        search_base_text render entities matching offset limit) := by
  constructor
  · intro h
    simp [search_response_text, h]
  · intro h
    have hne : ¬((entities.length : Int) = limit) := ne_of_lt h
    simp [search_response_text, hne]

/-- Witness for C6: a full page of two entities at limit 2 gains the
continuation instruction for offset 2; one entity at limit 50 does not. -/
theorem C6_continuation_witness :
    (search_response_text (fun _ => "r") [[], []] [] 0 2 =
      search_base_text (fun _ => "r") [[], []] [] 0 2 ++ continuationText (0 + 2)) ∧
    (search_response_text (fun _ => "r") [[]] [] 0 50 =
      search_base_text (fun _ => "r") [[]] [] 0 50) :=
  ⟨(C6_continuation (fun _ => "r") [[], []] [] 0 2).1 (by decide),
   (C6_continuation (fun _ => "r") [[]] [] 0 50).2 (by decide)⟩

/-- C7: the wire document built by the search scanner has no `q/order-by`
key at all; the ordering request sits under the key `q/order` as the flat
pair `["fibery/creation-date", "desc"]`, not as the wire protocol's ordered
list of (path, direction) pairs. -/
theorem C7_search_order_wire :
    (search_query_doc "Sales/Deal" [("Name", FieldSpec.str "Sales/name")] 500 0).lookup
        "q/order-by" = none ∧
    (search_query_doc "Sales/Deal" [("Name", FieldSpec.str "Sales/name")] 500 0).lookup
        "q/order" = some (QVal.strList ["fibery/creation-date", "desc"]) := by
  decide

/-- C9: no key of an entity included in the search output starts with the
reserved probe prefix. -/
theorem C9_no_probe_keys (args : SearchArgs) (entities : List Entity)
    (e : Entity) (h : e ∈ handle_search_filter args entities)
    (k : String) (v : EVal) (hkv : (k, v) ∈ e) :
    pyStartsWith k "_search_" = false := by
  unfold handle_search_filter at h
  rcases List.mem_map.mp h with ⟨e0, -, rfl⟩
  have h2 := (List.mem_filter.mp hkv).2
  simpa using h2

/-- Witness for C9 at a concrete matching entity. -/
theorem C9_no_probe_keys_witness :
    ([("Name", EVal.str "ACME Corp"), ("Id", EVal.str "id1")] ∈
      handle_search_filter ⟨"Sales/Deal", "Acme", none, none, none, none⟩
        [[("Name", EVal.str "ACME Corp"), ("Id", EVal.str "id1")]]) ∧
    pyStartsWith "Name" "_search_" = false :=
  ⟨by decide,
   C9_no_probe_keys ⟨"Sales/Deal", "Acme", none, none, none, none⟩
     [[("Name", EVal.str "ACME Corp"), ("Id", EVal.str "id1")]]
     [("Name", EVal.str "ACME Corp"), ("Id", EVal.str "id1")] (by decide)
     "Name" (EVal.str "ACME Corp") (by decide)⟩

/-- An entry processed by the `get_rich_text_fields` loop lands in the
returned worklist (when flagged) and in the returned select clause. -/
theorem grtf_mem_of_entry (db : Database) (q : Select) :
    ∀ (refs : List RichRef) (out : Select),
      get_rich_text_fields q db = .ok (refs, out) →
      ∀ (a : String) (sp : FieldSpec), (a, sp) ∈ q →
      ∀ (r? : Option RichRef) (sp' : FieldSpec),
        richEntry db a sp = .ok (r?, sp') →
        (∀ r, r? = some r → r ∈ refs) ∧ (a, sp') ∈ out := by
  induction q with
  | nil =>
    intro refs out h a sp hmem
    simp at hmem
  | cons hd tl ih =>
    intro refs out h a sp hmem r? sp' hre
    obtain ⟨b, spb⟩ := hd
    unfold get_rich_text_fields at h
    cases hb : richEntry db b spb with
    | error e => rw [hb] at h; simp at h
    | ok pr =>
      obtain ⟨rb?, spb'⟩ := pr
      rw [hb] at h
      cases ht : get_rich_text_fields tl db with
      | error e => rw [ht] at h; simp at h
      | ok pr2 =>
        obtain ⟨refs0, out0⟩ := pr2
        rw [ht] at h
        simp only [Except.ok.injEq, Prod.mk.injEq] at h
        obtain ⟨hrefs, hout⟩ := h
        subst hrefs; subst hout
        rcases List.mem_cons.mp hmem with heq | hmemtl
        · obtain ⟨rfl, rfl⟩ := Prod.mk.injEq .. |>.mp heq
          have hsame := hb.symm.trans hre
          simp only [Except.ok.injEq, Prod.mk.injEq] at hsame
          obtain ⟨h1, h2⟩ := hsame
          subst h1; subst h2
          constructor
          · intro r hr
            subst hr
            simp [Option.toList]
          · exact List.mem_cons_self _ _
        · obtain ⟨h1, h2⟩ := ih refs0 out0 ht a sp hmemtl r? sp' hre
          constructor
          · intro r hr
            exact List.mem_append_right _ (h1 r hr)
          · exact List.mem_cons_of_mem _ h2

/-- C1: an alias whose select value resolves — a string directly, a list
via its first segment — to a field flagged rich-text is substituted to the
two-segment handle path in the returned select clause and recorded, with
the field name, in the returned worklist. -/
theorem C1_rich_text_substitution (q_select : Select) (db : Database)
    (refs : List RichRef) (out : Select)
    (h : get_rich_text_fields q_select db = .ok (refs, out))
    (a name : String) (sp : FieldSpec) (hmem : (a, sp) ∈ q_select)
    (hres : sp = FieldSpec.str name ∨ ∃ segs, sp = FieldSpec.list (name :: segs))
    (f : SchemaField) (hf : db.fields_by_name.lookup name = some f)
    (hrich : f.is_rich_text = true) :
    RichRef.mk a name ∈ refs ∧
      (a, FieldSpec.list [name, "Collaboration~Documents/secret"]) ∈ out := by
  have hre : richEntry db a sp =
      .ok (some ⟨a, name⟩, FieldSpec.list [name, "Collaboration~Documents/secret"]) := by
    rcases hres with rfl | ⟨segs, rfl⟩ <;>
      simp [richEntry, resolveLeafName, hf, hrich]
  obtain ⟨h1, h2⟩ := grtf_mem_of_entry db q_select refs out h a sp hmem _ _ hre
  exact ⟨h1 _ rfl, h2⟩

/-- Witness for C1: a one-entry select over a rich-text field. -/
theorem C1_rich_text_substitution_witness :
    get_rich_text_fields [("Desc", FieldSpec.str "Sp/desc")]
        ⟨[("Sp/desc", ⟨true⟩)]⟩ =
      .ok ([⟨"Desc", "Sp/desc"⟩],
        [("Desc", FieldSpec.list ["Sp/desc", "Collaboration~Documents/secret"])]) ∧
    (RichRef.mk "Desc" "Sp/desc" ∈ [RichRef.mk "Desc" "Sp/desc"] ∧
      ("Desc", FieldSpec.list ["Sp/desc", "Collaboration~Documents/secret"]) ∈
        [("Desc", FieldSpec.list ["Sp/desc", "Collaboration~Documents/secret"])]) :=
  ⟨rfl,
   C1_rich_text_substitution [("Desc", FieldSpec.str "Sp/desc")]
     ⟨[("Sp/desc", ⟨true⟩)]⟩ [⟨"Desc", "Sp/desc"⟩]
     [("Desc", FieldSpec.list ["Sp/desc", "Collaboration~Documents/secret"])] rfl
     "Desc" "Sp/desc" (FieldSpec.str "Sp/desc") (by decide) (Or.inl rfl)
     ⟨true⟩ (by decide) rfl⟩

/-- A loop iteration can only raise on the empty-list select value. -/
theorem richEntry_error_imp (db : Database) (a : String) (sp : FieldSpec)
    (e : String) (h : richEntry db a sp = .error e) :
    sp = FieldSpec.list [] := by
  cases sp with
  | subq t => simp [richEntry, resolveLeafName] at h
  | other t => simp [richEntry, resolveLeafName] at h
  | str s =>
    simp only [richEntry, resolveLeafName] at h
    split at h
    · simp at h
    · split at h <;> simp at h
  | list segs =>
    cases segs with
    | nil => rfl
    | cons s t =>
      simp only [richEntry, resolveLeafName] at h
      split at h
      · simp at h
      · split at h <;> simp at h

/-- An unresolvable entry other than the empty list is skipped: no worklist
entry, value kept. -/
theorem richEntry_skip (db : Database) (a : String) (sp : FieldSpec)
    (h1 : unresolvableSpec db sp = true) (h2 : sp ≠ FieldSpec.list []) :
    richEntry db a sp = .ok (none, sp) := by
  cases sp with
  | subq t => rfl
  | other t => rfl
  | str s =>
    rw [unresolvableSpec, Option.isNone_iff_eq_none] at h1
    simp [richEntry, resolveLeafName, h1]
  | list segs =>
    cases segs with
    | nil => exact absurd rfl h2
    | cons s t =>
      rw [unresolvableSpec, Option.isNone_iff_eq_none] at h1
      simp [richEntry, resolveLeafName, h1]

/-- C8 (amended): when no select value is the empty list, rich-text
detection completes without error and every entry it cannot resolve to a
known field — sub-queries, unknown names, other unsupported shapes — is
kept unchanged in the resulting select clause. -/
theorem C8_best_effort (q_select : Select) (db : Database)
    (h : ∀ p ∈ q_select, p.2 ≠ FieldSpec.list []) :
    ∃ refs out, get_rich_text_fields q_select db = .ok (refs, out) ∧
      ∀ p ∈ q_select, unresolvableSpec db p.2 = true → p ∈ out := by
  induction q_select with
  | nil => exact ⟨[], [], rfl, by simp⟩
  | cons hd tl ih =>
    obtain ⟨a, sp⟩ := hd
    have hhd : sp ≠ FieldSpec.list [] := h (a, sp) (List.mem_cons_self _ _)
    obtain ⟨refs0, out0, hg, hmem⟩ := ih (fun p hp => h p (List.mem_cons_of_mem _ hp))
    cases hre : richEntry db a sp with
    | error e => exact absurd (richEntry_error_imp db a sp e hre) hhd
    | ok pr =>
      obtain ⟨r?, sp'⟩ := pr
      refine ⟨r?.toList ++ refs0, (a, sp') :: out0, ?_, ?_⟩
      · unfold get_rich_text_fields
        rw [hre, hg]
      · intro p hp hun
        rcases List.mem_cons.mp hp with heq | hptl
        · subst heq
          have hskip := richEntry_skip db a sp hun hhd
          have hsame := hskip.symm.trans hre
          simp only [Except.ok.injEq, Prod.mk.injEq] at hsame
          obtain ⟨-, h2⟩ := hsame
          subst h2
          exact List.mem_cons_self _ _
        · exact List.mem_cons_of_mem _ (hmem p hptl hun)

/-- C8 counterexample: a list-shaped select value of length zero makes
`get_rich_text_fields` raise (Python `IndexError` on `field_name[0]`)
instead of completing with the entry untouched. -/
theorem C8_cex_empty_list_spec :
    get_rich_text_fields [("A", FieldSpec.list [])] ⟨[]⟩ =
      .error "IndexError: list index out of range" := rfl

/-- Witness for C8 on sub-query, unknown-name, and other-shaped entries. -/
theorem C8_best_effort_witness :
    (∀ p ∈ [("A", FieldSpec.subq 0), ("B", FieldSpec.str "Sp/unknown"),
        ("C", FieldSpec.other 0)], p.2 ≠ FieldSpec.list []) ∧
    (∃ refs out,
      get_rich_text_fields [("A", FieldSpec.subq 0), ("B", FieldSpec.str "Sp/unknown"),
          ("C", FieldSpec.other 0)] ⟨[]⟩ = .ok (refs, out) ∧
      ∀ p ∈ [("A", FieldSpec.subq 0), ("B", FieldSpec.str "Sp/unknown"),
          ("C", FieldSpec.other 0)], unresolvableSpec ⟨[]⟩ p.2 = true → p ∈ out) :=
  ⟨by decide,
   C8_best_effort [("A", FieldSpec.subq 0), ("B", FieldSpec.str "Sp/unknown"),
     ("C", FieldSpec.other 0)] ⟨[]⟩ (by decide)⟩

/-- Updating one key of an association list leaves lookups of other keys
unchanged (in-place branch). -/
theorem lookup_map_update {α : Type} (d : List (String × α)) (k k' : String)
    (v : α) (h : k' ≠ k) :
    (d.map (fun p => if p.1 == k then (k, v) else p)).lookup k' = d.lookup k' := by
  induction d with
  | nil => rfl
  | cons p t ih =>
    obtain ⟨pk, pv⟩ := p
    rw [List.map_cons]
    dsimp only
    by_cases hpk : pk = k
    · rw [if_pos (show (pk == k) = true by simp [hpk])]
      have hb : (k' == k) = false := by simp [h]
      have hb' : (k' == pk) = false := by simp [hpk, h]
      simp only [List.lookup, hb, hb']
      exact ih
    · rw [if_neg (show ¬(pk == k) = true by simp [hpk])]
      cases hk' : (k' == pk)
      · simp only [List.lookup, hk']
        exact ih
      · simp only [List.lookup, hk']

/-- Appending a fresh key leaves lookups of other keys unchanged
(append branch). -/
theorem lookup_append_ne {α : Type} (d : List (String × α)) (k k' : String)
    (v : α) (h : k' ≠ k) :
    (d ++ [(k, v)]).lookup k' = d.lookup k' := by
  induction d with
  | nil =>
    have hb : (k' == k) = false := by simp [h]
    simp [List.lookup, hb]
  | cons p t ih =>
    obtain ⟨pk, pv⟩ := p
    rw [List.cons_append]
    cases hk' : (k' == pk) <;> simp [List.lookup, hk', ih]

/-- Python dict assignment leaves lookups of other keys unchanged. -/
theorem lookup_dictSet_ne {α : Type} (d : List (String × α)) (k k' : String)
    (v : α) (h : k' ≠ k) :
    (dictSet d k v).lookup k' = d.lookup k' := by
  unfold dictSet
  split
  · exact lookup_map_update d k k' v h
  · exact lookup_append_ne d k k' v h

/-- When per-entity resolution aborts, the reported worklist entry is from
the worklist and the reported entity lacks a non-empty handle there. -/
theorem resolveEntity_error (fetch : EVal → String) :
    ∀ (rtf : List RichRef) (e e' : Entity) (f' : RichRef),
      resolveEntity fetch e rtf = .error (e', f') →
      f' ∈ rtf ∧ lacksHandle e' f' := by
  intro rtf
  induction rtf with
  | nil => intro e e' f' h; simp [resolveEntity] at h
  | cons f rest ih =>
    intro e e' f' h
    simp only [resolveEntity] at h
    split at h
    · rename_i hcond
      simp only [Except.error.injEq, Prod.mk.injEq] at h
      obtain ⟨rfl, rfl⟩ := h
      exact ⟨List.mem_cons_self _ _, hcond⟩
    · obtain ⟨h1, h2⟩ := ih _ e' f' h
      exact ⟨List.mem_cons_of_mem _ h1, h2⟩

/-- A worklisted alias with a falsy handle forces per-entity resolution to
abort, provided the worklist aliases are distinct (they are select-clause
keys). -/
theorem resolveEntity_err_of_lacks (fetch : EVal → String) :
    ∀ (rtf : List RichRef) (e : Entity) (f : RichRef),
      (rtf.map RichRef.alias_).Nodup → f ∈ rtf → lacksHandle e f →
      ∃ p, resolveEntity fetch e rtf = .error p := by
  intro rtf
  induction rtf with
  | nil => intro e f _ hf; simp at hf
  | cons f0 rest ih =>
    intro e f hnd hf hl
    by_cases h0 : ((e.lookup f0.alias_).getD EVal.null).falsy = true
    · exact ⟨(e, f0), by simp [resolveEntity, h0]⟩
    · have hff0 : f ≠ f0 := by rintro rfl; exact h0 hl
      have hfrest : f ∈ rest := (List.mem_cons.mp hf).resolve_left hff0
      have halias : f.alias_ ≠ f0.alias_ := by
        intro hh
        have hmem : f0.alias_ ∈ rest.map RichRef.alias_ :=
          hh ▸ List.mem_map_of_mem _ hfrest
        exact (List.nodup_cons.mp hnd).1 hmem
      have hl' : lacksHandle
          (entitySet e f0.alias_
            (EVal.str (fetch ((e.lookup f0.alias_).getD EVal.null)))) f := by
        unfold lacksHandle entitySet
        rw [lookup_dictSet_ne _ _ _ _ halias]
        exact hl
      obtain ⟨p, hp⟩ := ih _ f (List.nodup_cons.mp hnd).2 hfrest hl'
      rw [Bool.not_eq_true] at h0
      exact ⟨p, by simp [resolveEntity, h0, hp]⟩

/-- When the post-execution step aborts, the reported worklist entry is
from the worklist and the reported entity lacks a non-empty handle there. -/
theorem resolveEntities_error (fetch : EVal → String) (rtf : List RichRef) :
    ∀ (es : List Entity) (e' : Entity) (f' : RichRef),
      resolveEntities fetch rtf es = .error (e', f') →
      f' ∈ rtf ∧ lacksHandle e' f' := by
  intro es
  induction es with
  | nil => intro e' f' h; simp [resolveEntities] at h
  | cons e rest ih =>
    intro e' f' h
    unfold resolveEntities at h
    cases hr : resolveEntity fetch e rtf with
    | error p =>
      rw [hr] at h
      obtain ⟨pe, pf⟩ := p
      simp only [Except.error.injEq, Prod.mk.injEq] at h
      obtain ⟨rfl, rfl⟩ := h
      exact resolveEntity_error fetch rtf e pe pf hr
    | ok e2 =>
      rw [hr] at h
      cases hrest : resolveEntities fetch rtf rest with
      | error p =>
        rw [hrest] at h
        obtain ⟨pe, pf⟩ := p
        simp only [Except.error.injEq, Prod.mk.injEq] at h
        obtain ⟨rfl, rfl⟩ := h
        exact ih pe pf hrest
      | ok rest2 => rw [hrest] at h; simp at h

/-- An entity lacking a non-empty handle at a worklisted alias forces the
post-execution step to abort. -/
theorem resolveEntities_err_exists (fetch : EVal → String) (rtf : List RichRef)
    (hnd : (rtf.map RichRef.alias_).Nodup) :
    ∀ (es : List Entity) (e : Entity) (f : RichRef),
      e ∈ es → f ∈ rtf → lacksHandle e f →
      ∃ p, resolveEntities fetch rtf es = .error p := by
  intro es
  induction es with
  | nil => intro e f he; simp at he
  | cons e0 rest ih =>
    intro e f he hf hl
    cases hr : resolveEntity fetch e0 rtf with
    | error p => exact ⟨p, by simp [resolveEntities, hr]⟩
    | ok e2 =>
      rcases List.mem_cons.mp he with rfl | herest
      · obtain ⟨p, hp⟩ := resolveEntity_err_of_lacks fetch rtf e f hnd hf hl
        rw [hr] at hp
        simp at hp
      · obtain ⟨p, hp⟩ := ih e f herest hf hl
        exact ⟨p, by simp [resolveEntities, hr, hp]⟩

/-- C2: after a successful execution, an entity lacking a non-empty handle
value at a worklisted alias makes the output exactly one diagnostic item —
naming a worklist entry and an entity lacking the handle at it — with no
result item. -/
theorem C2_missing_handle_aborts (fetch : EVal → String) (rtf : List RichRef)
    (entities : List Entity)
    (hnd : (rtf.map RichRef.alias_).Nodup)
    (h : ∃ e ∈ entities, ∃ f ∈ rtf, lacksHandle e f) :
    ∃ e' f', handle_query_post fetch rtf entities = [QueryOut.diag e' f'] ∧
      f' ∈ rtf ∧ lacksHandle e' f' := by
  obtain ⟨e, he, f, hf, hl⟩ := h
  obtain ⟨p, hp⟩ := resolveEntities_err_exists fetch rtf hnd entities e f he hf hl
  obtain ⟨e', f'⟩ := p
  obtain ⟨hmem, hlack⟩ := resolveEntities_error fetch rtf entities e' f' hp
  exact ⟨e', f', by simp [handle_query_post, hp], hmem, hlack⟩

/-- Witness for C2: one entity whose worklisted alias holds `None`. -/
theorem C2_missing_handle_aborts_witness :
    (([RichRef.mk "Name" "Sales/name"].map RichRef.alias_).Nodup) ∧
    (∃ e ∈ [[("Name", EVal.null)]], ∃ f ∈ [RichRef.mk "Name" "Sales/name"],
      lacksHandle e f) ∧
    (∃ e' f', handle_query_post (fun _ => "doc") [RichRef.mk "Name" "Sales/name"]
        [[("Name", EVal.null)]] = [QueryOut.diag e' f'] ∧
      f' ∈ [RichRef.mk "Name" "Sales/name"] ∧ lacksHandle e' f') :=
  ⟨by decide,
   ⟨[("Name", EVal.null)], by decide, RichRef.mk "Name" "Sales/name", by decide, rfl⟩,
   C2_missing_handle_aborts (fun _ => "doc") [RichRef.mk "Name" "Sales/name"]
     [[("Name", EVal.null)]] (by decide)
     ⟨[("Name", EVal.null)], by decide, RichRef.mk "Name" "Sales/name", by decide, rfl⟩⟩

/-- The code's truthiness-guarded match test agrees with the spec-side
non-empty-string containment test. -/
theorem fieldMatches_eq_spec (query : String) (q_select : Select)
    (entity : Entity) (sf : String) :
    fieldMatches query q_select entity sf =
      specFieldMatch query q_select entity sf := by
  cases hv : locateFieldValue q_select entity sf with
  | null => simp [fieldMatches, specFieldMatch, hv, EVal.falsy]
  | str s => simp [fieldMatches, specFieldMatch, hv, EVal.falsy, bne]
  | num n => simp [fieldMatches, specFieldMatch, hv, EVal.falsy]
  | boolV b => simp [fieldMatches, specFieldMatch, hv, EVal.falsy]
  | other t tr => simp [fieldMatches, specFieldMatch, hv, EVal.falsy]

/-- The `match_found` loop is the any-combinator over search fields. -/
theorem entityMatches_eq_any (query : String) (q_select : Select)
    (entity : Entity) :
    ∀ sfs : List String,
      entityMatches query q_select entity sfs =
        sfs.any (fun sf => specFieldMatch query q_select entity sf) := by
  intro sfs
  induction sfs with
  | nil => rfl
  | cons sf rest ih =>
    simp only [entityMatches, fieldMatches_eq_spec, List.any_cons]
    cases specFieldMatch query q_select entity sf <;> simp [ih]

/-- C3 (amended): an entity survives the search filter exactly when some
configured search field's located value — probe alias first, equal-valued
select alias next, direct key last — is a non-empty string containing the
lower-cased query case-insensitively; survivors are included with their
probe aliases stripped. -/
theorem C3_search_filter (args : SearchArgs) (entities : List Entity) :
    handle_search_filter args entities =
      (entities.filter (fun e => (defaultedSearchFields args).any
        (fun sf => specFieldMatch (pyLower args.query) (searchSelect args) e sf))).map
        stripProbes := by
  have hfun : (fun e => entityMatches (pyLower args.query) (searchSelect args) e
      (defaultedSearchFields args)) =
      (fun e => (defaultedSearchFields args).any
        (fun sf => specFieldMatch (pyLower args.query) (searchSelect args) e sf)) := by
    funext e
    exact entityMatches_eq_any _ _ _ _
  simp only [handle_search_filter]
  rw [hfun]

/-- C3 counterexample: with the empty query (lower-cased to "") and an
entity whose located search-field value is the empty string, the located
value is a string containing the query as a case-insensitive substring,
yet the filter excludes the entity — the code also demands Python
truthiness, i.e. a non-empty string. -/
theorem C3_cex_empty_string :
    handle_search_filter ⟨"Sales/Deal", "", none, none, none, none⟩
        [[("Name", EVal.str ""), ("Id", EVal.str "id1")]] = [] ∧
    defaultedSearchFields ⟨"Sales/Deal", "", none, none, none, none⟩ =
      ["Sales/name"] ∧
    locateFieldValue (searchSelect ⟨"Sales/Deal", "", none, none, none, none⟩)
        [("Name", EVal.str ""), ("Id", EVal.str "id1")] "Sales/name" =
      EVal.str "" ∧
    strContainsSub (pyLower "") (pyLower "") = true := by decide

/-- Setting one heap cell leaves the others unchanged. -/
theorem get?_set_ne {α : Type} :
    ∀ (l : List α) (i j : Nat) (v : α), i ≠ j →
      (l.set i v).get? j = l.get? j := by
  intro l
  induction l with
  | nil => intro i j v h; rfl
  | cons x t ih =>
    intro i j v h
    cases i with
    | zero =>
      cases j with
      | zero => exact absurd rfl h
      | succ j' => rfl
    | succ i' =>
      cases j with
      | zero => rfl
      | succ j' =>
        simp only [List.set, List.get?]
        exact ih i' j' v (fun hh => h (congrArg Nat.succ hh))

/-- The `get_rich_text_fields` loop writes only through the copy's
address. -/
theorem richLoop_frame (db : Database) (addr : Nat) :
    ∀ (l : List (String × FieldSpec)) (store : Store) (j : Nat), j ≠ addr →
      ((richLoop db addr store l).1).get? j = store.get? j := by
  intro l
  induction l with
  | nil => intro store j h; rfl
  | cons p rest ih =>
    intro store j h
    obtain ⟨a, sp⟩ := p
    cases hre : richEntry db a sp with
    | error e => simp [richLoop, hre]
    | ok pr =>
      obtain ⟨r?, sp'⟩ := pr
      cases r? with
      | none =>
        simp only [richLoop, hre]
        exact ih store j h
      | some r =>
        simp only [richLoop, hre]
        rw [ih (store.set addr (dictSet ((store.get? addr).getD []) a sp')) j h]
        exact get?_set_ne store addr j _ (fun hh => h hh.symm)

/-- C10: the caller's select dict is unchanged by rich-text detection —
the loop mutates only the deep copy allocated at a fresh address. -/
theorem C10_no_caller_mutation (store : Store) (qAddr : Nat) (db : Database)
    (h : qAddr < store.length) :
    ((get_rich_text_fields_prog store qAddr db).1).get? qAddr =
      store.get? qAddr := by
  have hne : qAddr ≠ store.length := Nat.ne_of_lt h
  simp only [get_rich_text_fields_prog]
  rw [richLoop_frame db store.length ((store.get? qAddr).getD [])
    (store ++ [(store.get? qAddr).getD []]) qAddr hne]
  simp only [List.get?_eq_getElem?]
  exact List.getElem?_append_left h

/-- Witness for C10: a one-dict heap whose select names a rich-text field,
so the loop really performs a substitution on the copy. -/
theorem C10_no_caller_mutation_witness :
    0 < [[("Name", FieldSpec.str "Sales/name")]].length ∧
    ((get_rich_text_fields_prog [[("Name", FieldSpec.str "Sales/name")]] 0
        ⟨[("Sales/name", ⟨true⟩)]⟩).1).get? 0 =
      [[("Name", FieldSpec.str "Sales/name")]].get? 0 :=
  ⟨by decide,
   C10_no_caller_mutation [[("Name", FieldSpec.str "Sales/name")]] 0
     ⟨[("Sales/name", ⟨true⟩)]⟩ (by decide)⟩

/-- C5: the wire document always carries the source, select, and limit
keys — limit defaulting to 50 when the argument is absent — and carries
the where, order-by, and offset keys only when the corresponding argument
is present; an omitted argument leaves the key absent. -/
theorem C5_wire_document_keys (args : QueryArgs) (db : Database)
    (rtf : List RichRef) (doc : List (String × QVal))
    (h : handle_query_build args db = .ok (rtf, doc)) :
    doc.lookup "q/from" = some (QVal.str args.q_from) ∧
    (∃ s, doc.lookup "q/select" = some (QVal.sel s)) ∧
    doc.lookup "q/limit" = some (QVal.int (args.q_limit.getD 50)) ∧
    ((doc.lookup "q/where").isSome → args.q_where.isSome) ∧
    (args.q_where = none → doc.lookup "q/where" = none) ∧
    ((doc.lookup "q/order-by").isSome → args.q_order_by.isSome) ∧
    (args.q_order_by = none → doc.lookup "q/order-by" = none) ∧
    ((doc.lookup "q/offset").isSome → args.q_offset.isSome) ∧
    (args.q_offset = none → doc.lookup "q/offset" = none) := by
  unfold handle_query_build at h
  cases hg : get_rich_text_fields args.q_select db with
  | error e => rw [hg] at h; simp at h
  | ok pr =>
    obtain ⟨rtf0, safe⟩ := pr
    rw [hg] at h
    simp only [Except.ok.injEq, Prod.mk.injEq] at h
    obtain ⟨-, hdoc⟩ := h
    subst hdoc
    obtain ⟨qf, qs, qw, qob, ql, qoff⟩ := args
    rcases qw with - | w <;> rcases qoff with - | o <;> rcases qob with - | ob <;>
      (try cases ob) <;> simp [build_query_doc, parse_q_order_by, List.lookup]

/-- Witness for C5 on a minimal query description with all optional
arguments omitted. -/
theorem C5_wire_document_keys_witness :
    handle_query_build ⟨"Sp/T", [("Name", FieldSpec.str "Sp/name")], none, none, none, none⟩
        ⟨[]⟩ =
      .ok ([], [("q/from", QVal.str "Sp/T"),
        ("q/select", QVal.sel [("Name", FieldSpec.str "Sp/name")]),
        ("q/limit", QVal.int 50)]) ∧
    ([("q/from", QVal.str "Sp/T"),
        ("q/select", QVal.sel [("Name", FieldSpec.str "Sp/name")]),
        ("q/limit", QVal.int 50)].lookup "q/from" = some (QVal.str "Sp/T") ∧
      (∃ s, [("q/from", QVal.str "Sp/T"),
        ("q/select", QVal.sel [("Name", FieldSpec.str "Sp/name")]),
        ("q/limit", QVal.int 50)].lookup "q/select" = some (QVal.sel s)) ∧
      [("q/from", QVal.str "Sp/T"),
        ("q/select", QVal.sel [("Name", FieldSpec.str "Sp/name")]),
        ("q/limit", QVal.int 50)].lookup "q/limit" =
          some (QVal.int ((none : Option Int).getD 50)) ∧
      (([("q/from", QVal.str "Sp/T"),
        ("q/select", QVal.sel [("Name", FieldSpec.str "Sp/name")]),
        ("q/limit", QVal.int 50)].lookup "q/where").isSome →
          (none : Option Nat).isSome) ∧
      ((none : Option Nat) = none → [("q/from", QVal.str "Sp/T"),
        ("q/select", QVal.sel [("Name", FieldSpec.str "Sp/name")]),
        ("q/limit", QVal.int 50)].lookup "q/where" = none) ∧
      (([("q/from", QVal.str "Sp/T"),
        ("q/select", QVal.sel [("Name", FieldSpec.str "Sp/name")]),
        ("q/limit", QVal.int 50)].lookup "q/order-by").isSome →
          (none : Option (List (String × String))).isSome) ∧
      ((none : Option (List (String × String))) = none →
        [("q/from", QVal.str "Sp/T"),
        ("q/select", QVal.sel [("Name", FieldSpec.str "Sp/name")]),
        ("q/limit", QVal.int 50)].lookup "q/order-by" = none) ∧
      (([("q/from", QVal.str "Sp/T"),
        ("q/select", QVal.sel [("Name", FieldSpec.str "Sp/name")]),
        ("q/limit", QVal.int 50)].lookup "q/offset").isSome →
          (none : Option Int).isSome) ∧
      ((none : Option Int) = none → [("q/from", QVal.str "Sp/T"),
        ("q/select", QVal.sel [("Name", FieldSpec.str "Sp/name")]),
        ("q/limit", QVal.int 50)].lookup "q/offset" = none)) :=
  ⟨rfl,
   C5_wire_document_keys
     ⟨"Sp/T", [("Name", FieldSpec.str "Sp/name")], none, none, none, none⟩ ⟨[]⟩
     [] [("q/from", QVal.str "Sp/T"),
       ("q/select", QVal.sel [("Name", FieldSpec.str "Sp/name")]),
       ("q/limit", QVal.int 50)] rfl⟩
